import Mathlib

/-!
Shallow embedding of the mrt_parser repository (src/lib.rs, src/bgp.rs,
src/processor.rs): an MRT container parser, a BGP attribute decoder and an
origin-AS extractor.  Byte streams are `List Nat` (each element one octet);
the sequential fallible reader of the Rust code becomes explicit state
passing: a read takes the remaining bytes and returns the value together
with the bytes left, or an error.  `ParseError.panicked` models a Rust
panic (index out of bounds, failed `unwrap`, `copy_from_slice` mismatch,
explicit `panic!`); the other constructors model `std::io::Error` kinds.
Release-build semantics are used (a `debug_assert!` is elided; `u8`
addition wraps modulo 256); the debug-build behaviour of the origin
extractor is modelled separately.
-/

namespace MrtParser

abbrev Bytes := List Nat

/-- All elements of the list are octets.  A real byte source can only
produce values below 256; theorems that need this state it explicitly. -/
def Wf8 (l : Bytes) : Prop := ∀ b ∈ l, b < 256

inductive ParseError where
  | eof
  | invalidData (msg : String)
  | panicked (msg : String)
deriving DecidableEq, Repr

/-- `read_u8` of the byteorder crate: one byte or an unexpected-EOF error. -/
def read_u8 : Bytes → Except ParseError (Nat × Bytes)
  | [] => .error .eof
  | b :: rest => .ok (b, rest)

/-- `read_u16::<BigEndian>`. -/
def read_u16_be : Bytes → Except ParseError (Nat × Bytes)
  | b0 :: b1 :: rest => .ok (b0 * 256 + b1, rest)
  | _ => .error .eof

/-- `read_u32::<BigEndian>`. -/
def read_u32_be : Bytes → Except ParseError (Nat × Bytes)
  | b0 :: b1 :: b2 :: b3 :: rest =>
      .ok (((b0 * 256 + b1) * 256 + b2) * 256 + b3, rest)
  | _ => .error .eof

/-- `read_exact` of src/lib.rs: exactly `n` bytes or an error. -/
def read_exact (n : Nat) (l : Bytes) : Except ParseError (Bytes × Bytes) :=
  if n ≤ l.length then .ok (l.take n, l.drop n) else .error .eof

/-! ## src/bgp.rs -/

inductive AttributeOrigin where
  | Igp
  | Egp
  | Incomplete
  | Unknown (value : Nat)
deriving DecidableEq, Repr

/-- `AttributeOrigin::from` (the name `from` is a Lean keyword). -/
def AttributeOrigin.ofValue (value : Nat) : AttributeOrigin :=
  if value = 0 then .Igp
  else if value = 1 then .Egp
  else if value = 2 then .Incomplete
  else .Unknown value

structure AttributeAsPath where
  data : Bytes
deriving DecidableEq, Repr

inductive Attribute where
  | Origin (o : AttributeOrigin)
  | AsPath (p : AttributeAsPath)
  | Unknown (type_id : Nat)
deriving DecidableEq, Repr

/-- The TLV framing part of `Attribute::parse`: flags byte, type byte,
one- or two-byte length depending on flags bit 4, then the data bytes. -/
def Attribute.parseRaw (l : Bytes) : Except ParseError ((Nat × Nat × Bytes) × Bytes) :=
  match read_u8 l with
  | .error e => .error e
  | .ok (flags, l) =>
    match read_u8 l with
    | .error e => .error e
    | .ok (type_id, l) =>
      match (if ((flags >>> 4) &&& 1) == 1 then read_u16_be l else read_u8 l) with
      | .error e => .error e
      | .ok (length, l) =>
        match read_exact length l with
        | .error e => .error e
        | .ok (data, l) => .ok ((flags, type_id, data), l)

/-- The dispatch part of `Attribute::parse`.  For type 1 the source indexes
`data[0]`, which panics on an empty buffer. -/
def Attribute.dispatch (type_id : Nat) (data : Bytes) : Except ParseError Attribute :=
  if type_id = 1 then
    match data with
    | [] => .error (.panicked ("index out of bounds"))
    | b :: _ => .ok (.Origin (AttributeOrigin.ofValue b))
  else if type_id = 2 then .ok (.AsPath { data := data })
  else .ok (.Unknown type_id)

/-- `Attribute::parse`. -/
def Attribute.parse (l : Bytes) : Except ParseError (Attribute × Bytes) :=
  match Attribute.parseRaw l with
  | .error e => .error e
  | .ok ((_flags, type_id, data), rest) =>
    match Attribute.dispatch type_id data with
    | .error e => .error e
    | .ok a => .ok (a, rest)

inductive PathSegmentType where
  | AsSet
  | AsSequence
  | AsConfedSequence
  | AsConfedSet
  | Unknown (n : Nat)
deriving DecidableEq, Repr

structure PathSegment where
  typ : PathSegmentType
  values : List Nat
deriving DecidableEq, Repr

/-- Segment-type byte classification inside `PathSegment::parse`. -/
def PathSegmentType.ofByte (t : Nat) : PathSegmentType :=
  if t = 1 then .AsSet
  else if t = 2 then .AsSequence
  else if t = 3 then .AsConfedSequence
  else if t = 4 then .AsConfedSet
  else .Unknown t

/-- One ASN value: four bytes when `is_asn_32bit`, else two bytes
zero-extended. -/
def readAsn (is_asn_32bit : Bool) (l : Bytes) : Except ParseError (Nat × Bytes) :=
  if is_asn_32bit then read_u32_be l else read_u16_be l

/-- The `for _ in 0..count` value loop of `PathSegment::parse`. -/
def readAsns (is_asn_32bit : Bool) : Nat → Bytes → Except ParseError (List Nat × Bytes)
  | 0, l => .ok ([], l)
  | n + 1, l =>
    match readAsn is_asn_32bit l with
    | .error e => .error e
    | .ok (v, l) =>
      match readAsns is_asn_32bit n l with
      | .error e => .error e
      | .ok (vs, l) => .ok (v :: vs, l)

/-- `PathSegment::parse`. -/
def PathSegment.parse (is_asn_32bit : Bool) (l : Bytes) :
    Except ParseError (PathSegment × Bytes) :=
  match read_u8 l with
  | .error e => .error e
  | .ok (t, l) =>
    match read_u8 l with
    | .error e => .error e
    | .ok (count, l) =>
      match readAsns is_asn_32bit count l with
      | .error e => .error e
      | .ok (values, l) => .ok ({ typ := PathSegmentType.ofByte t, values := values }, l)

/-- The `while cursor.position() < len` loop of
`AttributeAsPath::get_path_segments`.  The fuel argument only bounds the
number of iterations; every successful `PathSegment::parse` consumes at
least two bytes, so with initial fuel equal to the byte count the
fuel-exhaustion branch is unreachable. -/
def getPathSegmentsAux (is_asn_32bit : Bool) : Nat → Bytes → Except ParseError (List PathSegment)
  | _, [] => .ok []
  | 0, _ :: _ => .error .eof
  | fuel + 1, l =>
    match PathSegment.parse is_asn_32bit l with
    | .error e => .error e
    | .ok (seg, rest) =>
      match getPathSegmentsAux is_asn_32bit fuel rest with
      | .error e => .error e
      | .ok segs => .ok (seg :: segs)

/-- `AttributeAsPath::get_path_segments`. -/
def AttributeAsPath.get_path_segments (p : AttributeAsPath) (is_asn_32bit : Bool) :
    Except ParseError (List PathSegment) :=
  getPathSegmentsAux is_asn_32bit p.data.length p.data

/-! ## src/lib.rs -/

inductive TableDump where
  | AfiIpv4
  | AfiIpv6
  | Unknown (n : Nat)
deriving DecidableEq, Repr

inductive TableDumpV2 where
  | PeerIndex
  | RibIpv4Unicast
  | RibIpv6Unicast
  | Unknown (n : Nat)
deriving DecidableEq, Repr

inductive MrtType where
  | TableDump (t : TableDump)
  | TableDumpV2 (t : TableDumpV2)
  | Unknown (n : Nat)
deriving DecidableEq, Repr

structure MrtHeader where
  timestamp : Nat
  typ : MrtType
  length : Nat
deriving DecidableEq, Repr

/-- The type/subtype classification match inside `Parser::read_header`. -/
def classifyMrtType (typ subtype : Nat) : MrtType :=
  if typ = 12 then
    .TableDump (if subtype = 1 then .AfiIpv4
      else if subtype = 2 then .AfiIpv6
      else .Unknown subtype)
  else if typ = 13 then
    .TableDumpV2 (if subtype = 1 then .PeerIndex
      else if subtype = 2 then .RibIpv4Unicast
      else if subtype = 4 then .RibIpv6Unicast
      else .Unknown subtype)
  else .Unknown typ

/-- `Parser::read_header`. -/
def read_header (l : Bytes) : Except ParseError (MrtHeader × Bytes) :=
  match read_u32_be l with
  | .error e => .error e
  | .ok (timestamp, l) =>
    match read_u16_be l with
    | .error e => .error e
    | .ok (typ, l) =>
      match read_u16_be l with
      | .error e => .error e
      | .ok (subtype, l) =>
        match read_u32_be l with
        | .error e => .error e
        | .ok (length, l) =>
          .ok ({ timestamp := timestamp, typ := classifyMrtType typ subtype,
                 length := length }, l)

/-- The `Message<M>` trait: a payload parser together with its
`can_parse` capability check. -/
structure MessageImpl (α : Type) where
  parseMsg : MrtHeader → Bytes → Except ParseError (α × Bytes)
  can_parse : MrtType → Bool

/-- `Parser::read_message`: panics when the chosen decoder cannot handle
the header's type tag, otherwise delegates to the decoder. -/
def read_message (M : MessageImpl α) (header : MrtHeader) (l : Bytes) :
    Except ParseError (α × Bytes) :=
  if M.can_parse header.typ then M.parseMsg header l
  else .error (.panicked ("This parser cannot parse"))

/-- `Parser::skip_message`. -/
def skip_message (header : MrtHeader) (l : Bytes) : Except ParseError (Unit × Bytes) :=
  match read_exact header.length l with
  | .error e => .error e
  | .ok (_, l) => .ok ((), l)

/-- An IP address as its octets (4 for V4, 16 for V6). -/
inductive IpAddr where
  | V4 (octets : Bytes)
  | V6 (octets : Bytes)
deriving DecidableEq, Repr

/-- `read_ip_addr` of src/lib.rs.  For V4 the source reads a big-endian
u32 and rebuilds the address from it; its octets are exactly the four
bytes read, which is how it is modelled here. -/
def read_ip_addr (is_ipv6 : Bool) (l : Bytes) : Except ParseError (IpAddr × Bytes) :=
  if is_ipv6 then
    match read_exact 16 l with
    | .error e => .error e
    | .ok (buffer, l) => .ok (.V6 buffer, l)
  else
    match read_exact 4 l with
    | .error e => .error e
    | .ok (buffer, l) => .ok (.V4 buffer, l)

/-- An IP network: address octets plus prefix length (the `ip_network`
crate's `IpNetwork`). -/
inductive IpNetwork where
  | v4 (octets : Bytes) (prefix_length : Nat)
  | v6 (octets : Bytes) (prefix_length : Nat)
deriving DecidableEq, Repr

/-- `IpNetwork::from(...).unwrap()`: the constructor errs (and the
`unwrap` panics) when the prefix length exceeds the address width. -/
def ipNetworkFromUnwrap (ip : IpAddr) (prefix_length : Nat) :
    Except ParseError IpNetwork :=
  match ip with
  | .V4 octets =>
    if prefix_length ≤ 32 then .ok (.v4 octets prefix_length)
    else .error (.panicked ("called unwrap on an Err value"))
  | .V6 octets =>
    if prefix_length ≤ 128 then .ok (.v6 octets prefix_length)
    else .error (.panicked ("called unwrap on an Err value"))

structure PeerEntry where
  peer_bgp_id : Nat
  ip_addr : IpAddr
  asn : Nat
deriving DecidableEq, Repr

/-- `PeerEntry::parse`. -/
def PeerEntry.parse (l : Bytes) : Except ParseError (PeerEntry × Bytes) :=
  match read_u8 l with
  | .error e => .error e
  | .ok (type_, l) =>
    let is_ipv6 := (type_ &&& 1) == 1
    let is_asn_32bit := ((type_ >>> 1) &&& 1) == 1
    match read_u32_be l with
    | .error e => .error e
    | .ok (peer_bgp_id, l) =>
      match read_ip_addr is_ipv6 l with
      | .error e => .error e
      | .ok (ip_addr, l) =>
        match (if is_asn_32bit then read_u32_be l else read_u16_be l) with
        | .error e => .error e
        | .ok (asn, l) =>
          .ok ({ peer_bgp_id := peer_bgp_id, ip_addr := ip_addr, asn := asn }, l)

/-- The view name is kept as its (validated) UTF-8 bytes; a Rust `String`
is exactly a UTF-8 byte buffer. -/
structure PeerIndexTable where
  collector_bgp_id : Nat
  view_name : Bytes
  peer_entries : List PeerEntry
deriving DecidableEq, Repr

def utf8_cont (b : Nat) : Bool := decide (128 ≤ b ∧ b ≤ 191)

/-- Models `str::from_utf8` validity from the Rust standard library
(external to the repository): standard UTF-8 well-formedness — no
overlong encodings, no surrogates, nothing above U+10FFFF. -/
def is_utf8 : Bytes → Bool
  | [] => true
  | b :: rest =>
    if b ≤ 127 then is_utf8 rest
    else if 194 ≤ b ∧ b ≤ 223 then
      match rest with
      | b1 :: rest2 => utf8_cont b1 && is_utf8 rest2
      | [] => false
    else if b = 224 then
      match rest with
      | b1 :: b2 :: rest2 =>
          decide (160 ≤ b1 ∧ b1 ≤ 191) && utf8_cont b2 && is_utf8 rest2
      | _ => false
    else if (225 ≤ b ∧ b ≤ 236) ∨ b = 238 ∨ b = 239 then
      match rest with
      | b1 :: b2 :: rest2 => utf8_cont b1 && utf8_cont b2 && is_utf8 rest2
      | _ => false
    else if b = 237 then
      match rest with
      | b1 :: b2 :: rest2 =>
          decide (128 ≤ b1 ∧ b1 ≤ 159) && utf8_cont b2 && is_utf8 rest2
      | _ => false
    else if b = 240 then
      match rest with
      | b1 :: b2 :: b3 :: rest2 =>
          decide (144 ≤ b1 ∧ b1 ≤ 191) && utf8_cont b2 && utf8_cont b3 && is_utf8 rest2
      | _ => false
    else if 241 ≤ b ∧ b ≤ 243 then
      match rest with
      | b1 :: b2 :: b3 :: rest2 =>
          utf8_cont b1 && utf8_cont b2 && utf8_cont b3 && is_utf8 rest2
      | _ => false
    else if b = 244 then
      match rest with
      | b1 :: b2 :: b3 :: rest2 =>
          decide (128 ≤ b1 ∧ b1 ≤ 143) && utf8_cont b2 && utf8_cont b3 && is_utf8 rest2
      | _ => false
    else false

/-- The `for _ in 0..peer_count` loop of `PeerIndexTable::parse`. -/
def readPeerEntries : Nat → Bytes → Except ParseError (List PeerEntry × Bytes)
  | 0, l => .ok ([], l)
  | n + 1, l =>
    match PeerEntry.parse l with
    | .error e => .error e
    | .ok (e, l) =>
      match readPeerEntries n l with
      | .error e => .error e
      | .ok (es, l) => .ok (e :: es, l)

/-- `PeerIndexTable::parse`.  The header argument is ignored by the
source (`_: &MrtHeader`). -/
def PeerIndexTable.parse (_header : MrtHeader) (l : Bytes) :
    Except ParseError (PeerIndexTable × Bytes) :=
  match read_u32_be l with
  | .error e => .error e
  | .ok (collector_bgp_id, l) =>
    match read_u16_be l with
    | .error e => .error e
    | .ok (view_name_length, l) =>
      match read_exact view_name_length l with
      | .error e => .error e
      | .ok (view_name_buffer, l) =>
        if is_utf8 view_name_buffer then
          match read_u16_be l with
          | .error e => .error e
          | .ok (peer_count, l) =>
            match readPeerEntries peer_count l with
            | .error e => .error e
            | .ok (peer_entries, l) =>
              .ok ({ collector_bgp_id := collector_bgp_id,
                     view_name := view_name_buffer,
                     peer_entries := peer_entries }, l)
        else
          .error (.invalidData ("PeerIndexTable view name did not contain valid UTF-8"))

def PeerIndexTable.can_parse (typ : MrtType) : Bool :=
  typ == .TableDumpV2 .PeerIndex

def peerIndexTableMessage : MessageImpl PeerIndexTable :=
  { parseMsg := PeerIndexTable.parse, can_parse := PeerIndexTable.can_parse }

structure Afi where
  view_number : Nat
  sequence_number : Nat
  prefix_net : IpNetwork
  status : Nat
  originated_time : Nat
  peer_ip : IpAddr
  peer_as : Nat
  data : Bytes
deriving DecidableEq, Repr

/-- `Afi::parse` (the source field `prefix` is named `prefix_net` here
because `prefix` is a Lean keyword). -/
def Afi.parse (header : MrtHeader) (l : Bytes) : Except ParseError (Afi × Bytes) :=
  match ((match header.typ with
         | .TableDump .AfiIpv4 => Except.ok false
         | .TableDump .AfiIpv6 => Except.ok true
         | .TableDump _ =>
             .error (.panicked ("Only AFI_IPv4 and AFI_IPv6 subtypes are supported"))
         | _ => .error (.panicked ("Only TableDump types is supported"))) :
        Except ParseError Bool) with
  | .error e => .error e
  | .ok is_ipv6 =>
    match read_u16_be l with
    | .error e => .error e
    | .ok (view_number, l) =>
      match read_u16_be l with
      | .error e => .error e
      | .ok (sequence_number, l) =>
        match read_ip_addr is_ipv6 l with
        | .error e => .error e
        | .ok (prefix_ip, l) =>
          match read_u8 l with
          | .error e => .error e
          | .ok (prefix_length, l) =>
            match ipNetworkFromUnwrap prefix_ip prefix_length with
            | .error e => .error e
            | .ok prefix_net =>
              match read_u8 l with
              | .error e => .error e
              | .ok (status, l) =>
                match read_u32_be l with
                | .error e => .error e
                | .ok (originated_time, l) =>
                  match read_ip_addr is_ipv6 l with
                  | .error e => .error e
                  | .ok (peer_ip, l) =>
                    match read_u16_be l with
                    | .error e => .error e
                    | .ok (peer_as, l) =>
                      match read_u16_be l with
                      | .error e => .error e
                      | .ok (attribute_length, l) =>
                        match read_exact attribute_length l with
                        | .error e => .error e
                        | .ok (data, l) =>
                          .ok ({ view_number := view_number,
                                 sequence_number := sequence_number,
                                 prefix_net := prefix_net, status := status,
                                 originated_time := originated_time,
                                 peer_ip := peer_ip, peer_as := peer_as,
                                 data := data }, l)

def Afi.can_parse (typ : MrtType) : Bool :=
  typ == .TableDump .AfiIpv4 || typ == .TableDump .AfiIpv6

def afiMessage : MessageImpl Afi :=
  { parseMsg := Afi.parse, can_parse := Afi.can_parse }

structure RibSubEntry where
  peer_index : Nat
  originated_time : Nat
  data : Bytes
deriving DecidableEq, Repr

/-- `RibSubEntry::parse`. -/
def RibSubEntry.parse (l : Bytes) : Except ParseError (RibSubEntry × Bytes) :=
  match read_u16_be l with
  | .error e => .error e
  | .ok (peer_index, l) =>
    match read_u32_be l with
    | .error e => .error e
    | .ok (originated_time, l) =>
      match read_u16_be l with
      | .error e => .error e
      | .ok (attribute_length, l) =>
        match read_exact attribute_length l with
        | .error e => .error e
        | .ok (data, l) =>
          .ok ({ peer_index := peer_index, originated_time := originated_time,
                 data := data }, l)

structure RibEntry where
  sequence_number : Nat
  prefix_net : IpNetwork
  sub_entries : List RibSubEntry
deriving DecidableEq, Repr

/-- The prefix block of `RibEntry::parse`: one prefix-length byte,
`(prefix_length + 7) / 8` prefix bytes (`u8` addition wraps modulo 256 in
a release build), zero-padded into the full address array.  The
`copy_from_slice` into the 4- or 16-byte array panics when the byte count
exceeds the array, and `Ipv4Network::from(..).unwrap()` /
`Ipv6Network::from(..).unwrap()` panics when the prefix length exceeds
the address width (the source's `debug_assert!` bounds checks are elided
in release builds). -/
def ribPrefixPart (typ : MrtType) (l : Bytes) : Except ParseError (IpNetwork × Bytes) :=
  match read_u8 l with
  | .error e => .error e
  | .ok (prefix_length, l) =>
    let prefix_bytes := (prefix_length + 7) % 256 / 8
    match read_exact prefix_bytes l with
    | .error e => .error e
    | .ok (prefix_buffer, l) =>
      match typ with
      | .TableDumpV2 .RibIpv4Unicast =>
        if prefix_bytes ≤ 4 then
          if prefix_length ≤ 32 then
            .ok (.v4 (prefix_buffer ++ List.replicate (4 - prefix_bytes) 0)
                   prefix_length, l)
          else .error (.panicked ("called unwrap on an Err value"))
        else .error (.panicked ("copy_from_slice length mismatch"))
      | .TableDumpV2 .RibIpv6Unicast =>
        if prefix_bytes ≤ 16 then
          if prefix_length ≤ 128 then
            .ok (.v6 (prefix_buffer ++ List.replicate (16 - prefix_bytes) 0)
                   prefix_length, l)
          else .error (.panicked ("called unwrap on an Err value"))
        else .error (.panicked ("copy_from_slice length mismatch"))
      | _ => .error (.panicked ("This parser cannot parse this type"))

/-- The `for _ in 0..entry_count` loop of `RibEntry::parse`. -/
def readRibSubEntries : Nat → Bytes → Except ParseError (List RibSubEntry × Bytes)
  | 0, l => .ok ([], l)
  | n + 1, l =>
    match RibSubEntry.parse l with
    | .error e => .error e
    | .ok (e, l) =>
      match readRibSubEntries n l with
      | .error e => .error e
      | .ok (es, l) => .ok (e :: es, l)

/-- `RibEntry::parse`. -/
def RibEntry.parse (header : MrtHeader) (l : Bytes) :
    Except ParseError (RibEntry × Bytes) :=
  match read_u32_be l with
  | .error e => .error e
  | .ok (sequence_number, l) =>
    match ribPrefixPart header.typ l with
    | .error e => .error e
    | .ok (prefix_net, l) =>
      match read_u16_be l with
      | .error e => .error e
      | .ok (entry_count, l) =>
        match readRibSubEntries entry_count l with
        | .error e => .error e
        | .ok (sub_entries, l) =>
          .ok ({ sequence_number := sequence_number, prefix_net := prefix_net,
                 sub_entries := sub_entries }, l)

def RibEntry.can_parse (typ : MrtType) : Bool :=
  typ == .TableDumpV2 .RibIpv4Unicast || typ == .TableDumpV2 .RibIpv6Unicast

def ribEntryMessage : MessageImpl RibEntry :=
  { parseMsg := RibEntry.parse, can_parse := RibEntry.can_parse }

/-! ## src/processor.rs -/

/-- `is_asn_bogus`: reserved, documentation/private-range or
above-allocation ASNs. -/
def is_asn_bogus (input : Nat) : Bool :=
  input == 0 || (decide (64496 ≤ input) && decide (input ≤ 131071))
    || decide (1000000 < input)

/-- Errors of the processor functions (`Box<dyn Error>` in the source):
a propagated I/O error, a string error, or a panic. -/
inductive ProcError where
  | io (e : ParseError)
  | msg (s : String)
  | panicked (s : String)
deriving DecidableEq, Repr

/-- Debug-format name of a `PathSegmentType`, as produced by the
source's `format!` with a debug specifier. -/
def pathSegmentTypeName : PathSegmentType → String
  | .AsSet => "AsSet"
  | .AsSequence => "AsSequence"
  | .AsConfedSequence => "AsConfedSequence"
  | .AsConfedSet => "AsConfedSet"
  | .Unknown n => "Unknown(" ++ toString n ++ ")"

/-- The inner `for value in path_segment.values.iter().rev()` scan of an
AsSequence segment, applied to the already-reversed value list: the first
non-bogus value, if any. -/
def findFirstNonBogus : List Nat → Option Nat
  | [] => none
  | v :: rest => if ! is_asn_bogus v then some v else findFirstNonBogus rest

/-- The `for path_segment in path_segments.iter().rev()` loop of
`get_origin_as_from_bgp_attribute_as_path`, applied to the
already-reversed segment list. -/
def originScanRev : List PathSegment → Except ProcError (List Nat)
  | [] => .error (.msg ("No origin"))
  | seg :: rest =>
    match seg.typ with
    | .AsSequence =>
      match findFirstNonBogus seg.values.reverse with
      | some v => .ok [v]
      | none => originScanRev rest
    | .AsSet => .ok (seg.values.filter (fun v => ! is_asn_bogus v))
    | t => .error (.msg ("Invalid/Legacy BGP Path Segment: " ++ pathSegmentTypeName t))

/-- The segment loop on a segment list in wire order. -/
def originScan (path_segments : List PathSegment) : Except ProcError (List Nat) :=
  originScanRev path_segments.reverse

/-- `get_origin_as_from_bgp_attribute_as_path`, release semantics: the
`debug_assert!` on line 22 of src/processor.rs is elided. -/
def get_origin_as_from_bgp_attribute_as_path (path : AttributeAsPath)
    (is_asn_32bit : Bool) : Except ProcError (List Nat) :=
  match path.get_path_segments is_asn_32bit with
  | .error e => .error (.io e)
  | .ok path_segments => originScan path_segments

/-- `get_origin_as_from_bgp_attribute_as_path`, debug semantics: the
`debug_assert!` evaluates `path_segments[0].typ == AsSequence`, so on an
empty segment list the index panics, and on a first segment that is not
an AsSequence the assertion itself panics. -/
def get_origin_as_from_bgp_attribute_as_path_debug (path : AttributeAsPath)
    (is_asn_32bit : Bool) : Except ProcError (List Nat) :=
  match path.get_path_segments is_asn_32bit with
  | .error e => .error (.io e)
  | .ok path_segments =>
    match path_segments with
    | [] => .error (.panicked ("index out of bounds"))
    | first :: _ =>
      if first.typ = .AsSequence then originScan path_segments
      else .error (.panicked ("assertion failed"))

/-! ## Helper lemmas -/

theorem read_exact_append (d rest : Bytes) :
    read_exact d.length (d ++ rest) = .ok (d, rest) := by
  unfold read_exact
  rw [if_pos (by simp)]
  rw [List.take_left, List.drop_left]

theorem wf8_drop {l : Bytes} (h : Wf8 l) (n : Nat) : Wf8 (l.drop n) :=
  fun b hb => h b (List.drop_subset n l hb)

theorem read_u16_be_ok {l : Bytes} {v : Nat} {rest : Bytes}
    (h : read_u16_be l = .ok (v, rest)) :
    rest = l.drop 2 ∧ (Wf8 l → v < 65536) := by
  match l with
  | [] => simp [read_u16_be] at h
  | [_] => simp [read_u16_be] at h
  | b0 :: b1 :: r =>
    simp only [read_u16_be, Except.ok.injEq, Prod.mk.injEq] at h
    obtain ⟨hv, hr⟩ := h
    refine ⟨hr.symm, fun hw => ?_⟩
    have h0 := hw b0 (by simp)
    have h1 := hw b1 (by simp)
    omega

theorem read_u32_be_ok {l : Bytes} {v : Nat} {rest : Bytes}
    (h : read_u32_be l = .ok (v, rest)) :
    rest = l.drop 4 ∧ (Wf8 l → v < 4294967296) := by
  match l with
  | [] => simp [read_u32_be] at h
  | [_] => simp [read_u32_be] at h
  | [_, _] => simp [read_u32_be] at h
  | [_, _, _] => simp [read_u32_be] at h
  | b0 :: b1 :: b2 :: b3 :: r =>
    simp only [read_u32_be, Except.ok.injEq, Prod.mk.injEq] at h
    obtain ⟨hv, hr⟩ := h
    refine ⟨hr.symm, fun hw => ?_⟩
    have h0 := hw b0 (by simp)
    have h1 := hw b1 (by simp)
    have h2 := hw b2 (by simp)
    have h3 := hw b3 (by simp)
    omega

/-- Width-dependent ASN bound: 2^32 for four-byte reads, 2^16 for
two-byte reads. -/
def asnBound (w : Bool) : Nat := if w then 4294967296 else 65536

theorem readAsn_ok {w : Bool} {l : Bytes} {v : Nat} {rest : Bytes}
    (h : readAsn w l = .ok (v, rest)) :
    rest = l.drop (if w then 4 else 2) ∧ (Wf8 l → v < asnBound w) := by
  cases w
  · simpa [readAsn, asnBound] using read_u16_be_ok (by simpa [readAsn] using h)
  · simpa [readAsn, asnBound] using read_u32_be_ok (by simpa [readAsn] using h)

theorem readAsns_ok {w : Bool} : ∀ {n : Nat} {l : Bytes} {vs : List Nat} {rest : Bytes},
    readAsns w n l = .ok (vs, rest) →
    vs.length = n ∧ (∃ k, rest = l.drop k) ∧
      (Wf8 l → ∀ v ∈ vs, v < asnBound w) := by
  intro n
  induction n with
  | zero =>
    intro l vs rest h
    simp only [readAsns, Except.ok.injEq, Prod.mk.injEq] at h
    obtain ⟨hvs, hrest⟩ := h
    exact ⟨by simp [← hvs], ⟨0, by simp [← hrest]⟩, by simp [← hvs]⟩
  | succ n ih =>
    intro l vs rest h
    unfold readAsns at h
    cases ha : readAsn w l with
    | error e => rw [ha] at h; simp at h
    | ok p =>
      obtain ⟨v, l1⟩ := p
      rw [ha] at h
      dsimp only at h
      cases hb : readAsns w n l1 with
      | error e => rw [hb] at h; simp at h
      | ok q =>
        obtain ⟨vs1, rest1⟩ := q
        rw [hb] at h
        simp only [Except.ok.injEq, Prod.mk.injEq] at h
        obtain ⟨hvs, hrest⟩ := h
        obtain ⟨hlen, ⟨k, hk⟩, hbnd⟩ := ih hb
        obtain ⟨hdrop, hvbnd⟩ := readAsn_ok ha
        refine ⟨by simp [← hvs, hlen], ⟨k + (if w then 4 else 2), ?_⟩, ?_⟩
        · rw [← hrest, hk, hdrop, List.drop_drop, Nat.add_comm]
        · intro hw v' hv'
          rw [← hvs] at hv'
          rcases List.mem_cons.mp hv' with h' | h'
          · subst h'; exact hvbnd hw
          · exact hbnd (by rw [hdrop]; exact wf8_drop hw _) v' h'

theorem pathSegment_parse_ok {w : Bool} {l : Bytes} {seg : PathSegment} {rest : Bytes}
    (h : PathSegment.parse w l = .ok (seg, rest)) :
    (∃ k, rest = l.drop k) ∧ (Wf8 l → ∀ v ∈ seg.values, v < asnBound w) ∧
      (∃ t c l2, l = t :: c :: l2 ∧ seg.typ = PathSegmentType.ofByte t ∧
        seg.values.length = c) := by
  match l with
  | [] => simp [PathSegment.parse, read_u8] at h
  | [_] => simp [PathSegment.parse, read_u8] at h
  | t :: c :: l2 =>
    unfold PathSegment.parse at h
    simp only [read_u8] at h
    cases hr : readAsns w c l2 with
    | error e => rw [hr] at h; simp at h
    | ok p =>
      obtain ⟨vs, r⟩ := p
      rw [hr] at h
      simp only [Except.ok.injEq, Prod.mk.injEq] at h
      obtain ⟨hseg, hrest⟩ := h
      obtain ⟨hlen, ⟨k, hk⟩, hbnd⟩ := readAsns_ok hr
      refine ⟨⟨k + 2, by rw [← hrest, hk]; rfl⟩, ?_, t, c, l2, rfl, by rw [← hseg], by rw [← hseg]; exact hlen⟩
      intro hw v hv
      rw [← hseg] at hv
      exact hbnd (wf8_drop (n := 2) hw) v hv

theorem getPathSegmentsAux_bound {w : Bool} : ∀ {fuel : Nat} {l : Bytes} {segs : List PathSegment},
    getPathSegmentsAux w fuel l = .ok segs → Wf8 l →
    ∀ s ∈ segs, ∀ v ∈ s.values, v < asnBound w := by
  intro fuel
  induction fuel with
  | zero =>
    intro l segs h hw
    cases l with
    | nil =>
      simp only [getPathSegmentsAux, Except.ok.injEq] at h
      simp [← h]
    | cons b t => simp [getPathSegmentsAux] at h
  | succ n ih =>
    intro l segs h hw
    cases l with
    | nil =>
      simp only [getPathSegmentsAux, Except.ok.injEq] at h
      simp [← h]
    | cons b t =>
      unfold getPathSegmentsAux at h
      cases hp : PathSegment.parse w (b :: t) with
      | error e => rw [hp] at h; simp at h
      | ok p =>
        obtain ⟨seg, rest⟩ := p
        rw [hp] at h
        dsimp only at h
        cases hq : getPathSegmentsAux w n rest with
        | error e => rw [hq] at h; simp at h
        | ok segs1 =>
          rw [hq] at h
          simp only [Except.ok.injEq] at h
          obtain ⟨⟨k, hk⟩, hbnd, -⟩ := pathSegment_parse_ok hp
          intro s hs v hv
          rw [← h] at hs
          rcases List.mem_cons.mp hs with h' | h'
          · subst h'; exact hbnd hw v hv
          · exact ih hq (by rw [hk]; exact wf8_drop hw _) s h' v hv

theorem attr_parseRaw_extended (flags type_id : Nat) (data rest : Bytes)
    (hf : ((flags >>> 4) &&& 1) = 1) :
    Attribute.parseRaw
        (flags :: type_id :: data.length / 256 :: data.length % 256 :: (data ++ rest))
      = .ok ((flags, type_id, data), rest) := by
  unfold Attribute.parseRaw
  simp only [read_u8, hf]
  norm_num
  simp only [read_u16_be]
  have hlen : data.length / 256 * 256 + data.length % 256 = data.length := by omega
  rw [hlen, read_exact_append]

theorem attr_parseRaw_short (flags type_id : Nat) (data rest : Bytes)
    (hf : ((flags >>> 4) &&& 1) = 0) :
    Attribute.parseRaw (flags :: type_id :: data.length :: (data ++ rest))
      = .ok ((flags, type_id, data), rest) := by
  unfold Attribute.parseRaw
  simp only [read_u8, hf]
  norm_num
  rw [read_exact_append]

/-! ## Claim theorems -/

/-- C2, counterexample: the claim states that the bogus-ASN classifier
classifies 65000 as not bogus, but `is_asn_bogus 65000` is `true` in the
code — 65000 lies inside the reserved range [64496, 131071] that the
very same claim declares bogus. -/
theorem claim_C2_counterexample : is_asn_bogus 65000 = true := by decide

/-- C2, amended: `is_asn_bogus` classifies 0, 64496, 131070, 1000001 and
also 65000 as bogus, and in general an ASN is bogus exactly when its
value is 0, lies in [64496, 131071], or exceeds 1,000,000. -/
theorem claim_C2 :
    (is_asn_bogus 0 = true ∧ is_asn_bogus 64496 = true ∧ is_asn_bogus 131070 = true
      ∧ is_asn_bogus 1000001 = true ∧ is_asn_bogus 65000 = true)
    ∧ ∀ n : Nat, is_asn_bogus n = true ↔ (n = 0 ∨ (64496 ≤ n ∧ n ≤ 131071) ∨ 1000000 < n) := by
  refine ⟨by decide, fun n => ?_⟩
  simp only [is_asn_bogus, Bool.or_eq_true, Bool.and_eq_true, beq_iff_eq,
    decide_eq_true_eq]
  omega

/-- C10: an AS-PATH attribute with zero bytes of payload decodes to an
empty segment list; under debug semantics the `debug_assert!` indexes
element 0 of that empty list and panics, while under release semantics
the reverse scan iterates zero times and the function returns the
"No origin" error. -/
theorem claim_C10 :
    (AttributeAsPath.get_path_segments ⟨[]⟩ false = .ok []
      ∧ AttributeAsPath.get_path_segments ⟨[]⟩ true = .ok [])
    ∧ (get_origin_as_from_bgp_attribute_as_path_debug ⟨[]⟩ false
          = .error (.panicked ("index out of bounds"))
      ∧ get_origin_as_from_bgp_attribute_as_path_debug ⟨[]⟩ true
          = .error (.panicked ("index out of bounds")))
    ∧ (get_origin_as_from_bgp_attribute_as_path ⟨[]⟩ false = .error (.msg ("No origin"))
      ∧ get_origin_as_from_bgp_attribute_as_path ⟨[]⟩ true = .error (.msg ("No origin"))) :=
  ⟨⟨rfl, rfl⟩, ⟨rfl, rfl⟩, ⟨rfl, rfl⟩⟩

/-- C3, counterexample: a PeerIndexTable record whose header declares
`payload_length = 0` still decodes successfully through `read_message`,
consuming all 8 payload bytes — the decoder neither consumes exactly
`payload_length` bytes nor stays within that bound. -/
theorem claim_C3_counterexample :
    read_message peerIndexTableMessage
        { timestamp := 0, typ := .TableDumpV2 .PeerIndex, length := 0 }
        [0, 0, 0, 0, 0, 0, 0, 0]
      = .ok ({ collector_bgp_id := 0, view_name := [], peer_entries := [] }, [])
    ∧ ([0, 0, 0, 0, 0, 0, 0, 0] : Bytes).length ≠
        (MrtHeader.length { timestamp := 0, typ := .TableDumpV2 .PeerIndex, length := 0 }) :=
  ⟨rfl, by decide⟩

/-- C3, amended: the payload decoders never consult `payload_length`;
their result (and hence the number of bytes they consume) depends only
on the header's type tag and the payload bytes, so the declared
`payload_length` is not enforced as a bound. -/
theorem claim_C3 :
    (∀ (h1 h2 : MrtHeader) (l : Bytes),
      h1.typ = .TableDumpV2 .PeerIndex → h2.typ = .TableDumpV2 .PeerIndex →
      read_message peerIndexTableMessage h1 l = read_message peerIndexTableMessage h2 l)
    ∧ (∀ (h1 h2 : MrtHeader) (l : Bytes), h1.typ = h2.typ →
        RibEntry.parse h1 l = RibEntry.parse h2 l)
    ∧ (∀ (h1 h2 : MrtHeader) (l : Bytes), h1.typ = h2.typ →
        Afi.parse h1 l = Afi.parse h2 l) := by
  refine ⟨?_, ?_, ?_⟩
  · intro h1 h2 l e1 e2
    unfold read_message
    simp only [peerIndexTableMessage, PeerIndexTable.can_parse, e1, e2]
    rfl
  · intro h1 h2 l e
    unfold RibEntry.parse
    rw [e]
  · intro h1 h2 l e
    unfold Afi.parse
    rw [e]

theorem claim_C3_witness :
    read_message peerIndexTableMessage
        { timestamp := 0, typ := .TableDumpV2 .PeerIndex, length := 0 }
        [0, 0, 0, 0, 0, 0, 0, 0]
      = read_message peerIndexTableMessage
        { timestamp := 5, typ := .TableDumpV2 .PeerIndex, length := 99 }
        [0, 0, 0, 0, 0, 0, 0, 0] :=
  claim_C3.1 { timestamp := 0, typ := .TableDumpV2 .PeerIndex, length := 0 }
    { timestamp := 5, typ := .TableDumpV2 .PeerIndex, length := 99 }
    [0, 0, 0, 0, 0, 0, 0, 0] rfl rfl

/-- C6: `read_header` consumes exactly 12 bytes — big-endian u32
timestamp, u16 type, u16 subtype, u32 length — and classifies every
type/subtype pair totally; unrecognized type or subtype codes become
`Unknown(code)`, and in the attribute decoder unrecognized
attribute-type codes become `Attribute.Unknown(code)`, never errors. -/
theorem claim_C6 :
    (∀ b0 b1 b2 b3 b4 b5 b6 b7 b8 b9 b10 b11 rest,
      read_header (b0 :: b1 :: b2 :: b3 :: b4 :: b5 :: b6 :: b7 :: b8 :: b9 :: b10 :: b11 :: rest)
        = .ok ({ timestamp := ((b0 * 256 + b1) * 256 + b2) * 256 + b3,
                 typ := classifyMrtType (b4 * 256 + b5) (b6 * 256 + b7),
                 length := ((b8 * 256 + b9) * 256 + b10) * 256 + b11 }, rest))
    ∧ (∀ typ subtype, typ ≠ 12 → typ ≠ 13 → classifyMrtType typ subtype = .Unknown typ)
    ∧ (∀ subtype, subtype ≠ 1 → subtype ≠ 2 →
        classifyMrtType 12 subtype = .TableDump (.Unknown subtype))
    ∧ (∀ subtype, subtype ≠ 1 → subtype ≠ 2 → subtype ≠ 4 →
        classifyMrtType 13 subtype = .TableDumpV2 (.Unknown subtype))
    ∧ (∀ type_id data, type_id ≠ 1 → type_id ≠ 2 →
        Attribute.dispatch type_id data = .ok (.Unknown type_id)) := by
  refine ⟨?_, ?_, ?_, ?_, ?_⟩
  · intro b0 b1 b2 b3 b4 b5 b6 b7 b8 b9 b10 b11 rest
    rfl
  · intro t s h1 h2
    simp [classifyMrtType, h1, h2]
  · intro s h1 h2
    simp [classifyMrtType, h1, h2]
  · intro s h1 h2 h4
    simp [classifyMrtType, h1, h2, h4]
  · intro t d h1 h2
    simp [Attribute.dispatch, h1, h2]

theorem claim_C6_witness :
    classifyMrtType 99 7 = .Unknown 99
    ∧ Attribute.dispatch 9 [1, 2] = .ok (.Unknown 9) :=
  ⟨claim_C6.2.1 99 7 (by decide) (by decide),
   claim_C6.2.2.2.2 9 [1, 2] (by decide) (by decide)⟩

/-- C8: when the PeerIndexTable view-name bytes are not valid UTF-8,
`PeerIndexTable::parse` fails with the invalid-data error.  The
remaining input `rest` (which would hold the peer count and the peer
entries) is universally quantified and absent from the result: no
PeerEntry parsing is attempted and no partial record is returned. -/
theorem claim_C8 (header : MrtHeader) (c0 c1 c2 c3 n0 n1 : Nat) (name rest : Bytes)
    (hlen : name.length = n0 * 256 + n1) (hbad : is_utf8 name = false) :
    PeerIndexTable.parse header (c0 :: c1 :: c2 :: c3 :: n0 :: n1 :: (name ++ rest))
      = .error (.invalidData ("PeerIndexTable view name did not contain valid UTF-8")) := by
  unfold PeerIndexTable.parse
  simp only [read_u32_be, read_u16_be]
  rw [← hlen, read_exact_append]
  simp [hbad]

theorem claim_C8_witness :
    PeerIndexTable.parse { timestamp := 0, typ := .Unknown 0, length := 0 }
        (0 :: 0 :: 0 :: 0 :: 0 :: 1 :: ([128] ++ [9, 9]))
      = .error (.invalidData ("PeerIndexTable view name did not contain valid UTF-8")) :=
  claim_C8 { timestamp := 0, typ := .Unknown 0, length := 0 } 0 0 0 0 0 1 [128] [9, 9]
    (by decide) (by decide)

/-- C5, counterexample: the same AS-PATH byte sequence `[2,1,0,0,0,0]`
decodes successfully under both width settings, but to two segments
under the 16-bit width and to one segment under the 32-bit width — the
segment kinds and per-segment ASN counts of the decoded result are not
identical across widths. -/
theorem claim_C5_counterexample :
    AttributeAsPath.get_path_segments ⟨[2, 1, 0, 0, 0, 0]⟩ false
      = .ok [{ typ := .AsSequence, values := [0] }, { typ := .Unknown 0, values := [] }]
    ∧ AttributeAsPath.get_path_segments ⟨[2, 1, 0, 0, 0, 0]⟩ true
      = .ok [{ typ := .AsSequence, values := [0] }]
    ∧ ([{ typ := .AsSequence, values := [0] }, { typ := .Unknown 0, values := [] }] :
        List PathSegment).length
      ≠ ([{ typ := .AsSequence, values := [0] }] : List PathSegment).length :=
  ⟨rfl, rfl, by decide⟩

/-- C1: on a successfully decoded non-empty segment list, the origin
extractor inspects the last segment first: an AsSequence segment yields
the first non-bogus value of its reversed value list as a singleton (or
defers to the remaining segments when every value is bogus); an AsSet
segment yields all its non-bogus values in filtered wire order,
unconditionally stopping; any other segment kind fails immediately with
an error naming that kind; and an exhausted scan fails with the
"No origin" error. -/
theorem claim_C1 (p : AttributeAsPath) (w : Bool) (segs : List PathSegment) (s : PathSegment)
    (h : p.get_path_segments w = .ok (segs ++ [s])) :
    (get_origin_as_from_bgp_attribute_as_path p w =
      match s.typ with
      | .AsSequence =>
        match findFirstNonBogus s.values.reverse with
        | some v => .ok [v]
        | none => originScan segs
      | .AsSet => .ok (s.values.filter (fun v => ! is_asn_bogus v))
      | t => .error (.msg ("Invalid/Legacy BGP Path Segment: " ++ pathSegmentTypeName t)))
    ∧ originScan ([] : List PathSegment) = .error (.msg ("No origin")) := by
  refine ⟨?_, rfl⟩
  unfold get_origin_as_from_bgp_attribute_as_path
  rw [h]
  show originScan (segs ++ [s]) = _
  unfold originScan
  rw [List.reverse_append]
  simp only [List.reverse_cons, List.reverse_nil, List.nil_append, List.singleton_append]
  obtain ⟨typ, values⟩ := s
  cases typ with
  | AsSequence =>
    cases hf : findFirstNonBogus values.reverse with
    | some v => simp [originScanRev, hf]
    | none => simp [originScanRev, hf, originScan]
  | AsSet => simp [originScanRev]
  | AsConfedSequence => simp [originScanRev]
  | AsConfedSet => simp [originScanRev]
  | Unknown n => simp [originScanRev]

theorem claim_C1_witness :
    get_origin_as_from_bgp_attribute_as_path
        ⟨[2, 3, 0, 0, 253, 232, 0, 0, 2, 189, 0, 0, 251, 244]⟩ true
      = .ok [701] := by
  have h := claim_C1 ⟨[2, 3, 0, 0, 253, 232, 0, 0, 2, 189, 0, 0, 251, 244]⟩ true []
    { typ := .AsSequence, values := [65000, 701, 64500] } (by rfl)
  exact h.1.trans (by rfl)

/-- C7: decoding an attribute TLV built from given flags, type and data
reproduces the type id and the exact data bytes; with data length at
most 255 the extended-length and short-length encodings of the same data
decode to the same attribute, and an AS-PATH TLV retains its data bytes
exactly. -/
theorem claim_C7 :
    (∀ (flags type_id : Nat) (data rest : Bytes),
      ((flags >>> 4) &&& 1) = 1 → data.length ≤ 65535 →
      Attribute.parseRaw
          (flags :: type_id :: data.length / 256 :: data.length % 256 :: (data ++ rest))
        = .ok ((flags, type_id, data), rest))
    ∧ (∀ (flags type_id : Nat) (data rest : Bytes),
      ((flags >>> 4) &&& 1) = 0 → data.length ≤ 255 →
      Attribute.parseRaw (flags :: type_id :: data.length :: (data ++ rest))
        = .ok ((flags, type_id, data), rest))
    ∧ (∀ (fe fs type_id : Nat) (data rest : Bytes),
      ((fe >>> 4) &&& 1) = 1 → ((fs >>> 4) &&& 1) = 0 → data.length ≤ 255 →
      Attribute.parse
          (fe :: type_id :: data.length / 256 :: data.length % 256 :: (data ++ rest))
        = Attribute.parse (fs :: type_id :: data.length :: (data ++ rest)))
    ∧ (∀ (flags : Nat) (data rest : Bytes),
      ((flags >>> 4) &&& 1) = 0 → data.length ≤ 255 →
      Attribute.parse (flags :: 2 :: data.length :: (data ++ rest))
        = .ok (.AsPath { data := data }, rest)) := by
  refine ⟨fun flags type_id data rest hf _ => attr_parseRaw_extended flags type_id data rest hf,
    fun flags type_id data rest hf _ => attr_parseRaw_short flags type_id data rest hf,
    ?_, ?_⟩
  · intro fe fs type_id data rest hfe hfs _
    unfold Attribute.parse
    rw [attr_parseRaw_extended fe type_id data rest hfe,
        attr_parseRaw_short fs type_id data rest hfs]
  · intro flags data rest hf _
    unfold Attribute.parse
    rw [attr_parseRaw_short flags 2 data rest hf]
    simp [Attribute.dispatch]

theorem claim_C7_witness :
    Attribute.parse (16 :: 2 :: 0 :: 3 :: ([7, 8, 9] ++ []))
      = Attribute.parse (0 :: 2 :: 3 :: ([7, 8, 9] ++ []))
    ∧ Attribute.parse (0 :: 2 :: 3 :: ([7, 8, 9] ++ []))
      = .ok (.AsPath { data := [7, 8, 9] }, []) :=
  ⟨claim_C7.2.2.1 16 0 2 [7, 8, 9] [] (by decide) (by decide) (by decide),
   claim_C7.2.2.2 0 [7, 8, 9] [] (by decide) (by decide)⟩

/-- C9: `Attribute::parse` on an Origin TLV (type 1) with declared data
length 0 indexes the first byte of the empty data buffer and panics
rather than returning an error value; for declared length at least 1 the
out-of-bounds branch is unreachable and the first data byte maps to
Igp = 0, Egp = 1, Incomplete = 2, Unknown otherwise. -/
theorem claim_C9 :
    (∀ (flags : Nat) (rest : Bytes), ((flags >>> 4) &&& 1) = 0 →
      Attribute.parse (flags :: 1 :: 0 :: rest)
        = .error (.panicked ("index out of bounds")))
    ∧ (∀ (flags b : Nat) (data rest : Bytes), ((flags >>> 4) &&& 1) = 0 →
      data.length + 1 ≤ 255 →
      Attribute.parse (flags :: 1 :: (data.length + 1) :: b :: (data ++ rest))
        = .ok (.Origin (AttributeOrigin.ofValue b), rest))
    ∧ (AttributeOrigin.ofValue 0 = .Igp ∧ AttributeOrigin.ofValue 1 = .Egp
      ∧ AttributeOrigin.ofValue 2 = .Incomplete
      ∧ ∀ n, n ≠ 0 → n ≠ 1 → n ≠ 2 → AttributeOrigin.ofValue n = .Unknown n) := by
  refine ⟨?_, ?_, by decide, by decide, by decide, ?_⟩
  · intro flags rest hf
    unfold Attribute.parse
    have h0 : Attribute.parseRaw (flags :: 1 :: 0 :: rest) = .ok ((flags, 1, []), rest) := by
      have := attr_parseRaw_short flags 1 [] rest hf
      simpa using this
    rw [h0]
    simp [Attribute.dispatch]
  · intro flags b data rest hf _
    unfold Attribute.parse
    have h1 : Attribute.parseRaw (flags :: 1 :: (data.length + 1) :: b :: (data ++ rest))
        = .ok ((flags, 1, b :: data), rest) := attr_parseRaw_short flags 1 (b :: data) rest hf
    rw [h1]
    simp [Attribute.dispatch]
  · intro n h0 h1 h2
    simp [AttributeOrigin.ofValue, h0, h1, h2]

theorem claim_C9_witness :
    Attribute.parse (0 :: 1 :: 0 :: [5, 6])
      = .error (.panicked ("index out of bounds"))
    ∧ Attribute.parse (0 :: 1 :: (0 + 1) :: 2 :: ([] ++ []))
      = .ok (.Origin (AttributeOrigin.ofValue 2), []) :=
  ⟨claim_C9.1 0 [5, 6] (by decide),
   claim_C9.2.1 0 2 [] [] (by decide) (by decide)⟩

/-- C4: whenever the RIB prefix block decodes successfully, the 1-byte
prefix length L is at most the address width, exactly `(L + 7) / 8`
(that is, ceil(L/8)) wire bytes follow it and become the leading address
octets, and the remaining octets up to the full width (4 bytes for
RibIpv4Unicast, 16 for RibIpv6Unicast) are zero-filled. -/
theorem claim_C4 :
    (∀ (L : Nat) (rest : Bytes) (net : IpNetwork) (rest2 : Bytes),
      ribPrefixPart (.TableDumpV2 .RibIpv4Unicast) (L :: rest) = .ok (net, rest2) →
      L ≤ 32 ∧ rest2 = rest.drop ((L + 7) / 8) ∧
        net = .v4 (rest.take ((L + 7) / 8) ++ List.replicate (4 - (L + 7) / 8) 0) L ∧
        (rest.take ((L + 7) / 8) ++ List.replicate (4 - (L + 7) / 8) 0).length = 4 ∧
        (rest.take ((L + 7) / 8) ++ List.replicate (4 - (L + 7) / 8) 0).drop ((L + 7) / 8)
          = List.replicate (4 - (L + 7) / 8) 0)
    ∧ (∀ (L : Nat) (rest : Bytes) (net : IpNetwork) (rest2 : Bytes),
      ribPrefixPart (.TableDumpV2 .RibIpv6Unicast) (L :: rest) = .ok (net, rest2) →
      L ≤ 128 ∧ rest2 = rest.drop ((L + 7) / 8) ∧
        net = .v6 (rest.take ((L + 7) / 8) ++ List.replicate (16 - (L + 7) / 8) 0) L ∧
        (rest.take ((L + 7) / 8) ++ List.replicate (16 - (L + 7) / 8) 0).length = 16 ∧
        (rest.take ((L + 7) / 8) ++ List.replicate (16 - (L + 7) / 8) 0).drop ((L + 7) / 8)
          = List.replicate (16 - (L + 7) / 8) 0) := by
  constructor
  · intro L rest net rest2 h
    unfold ribPrefixPart at h
    simp only [read_u8] at h
    by_cases hle : (L + 7) % 256 / 8 ≤ rest.length
    case neg => simp [read_exact, hle] at h
    case pos =>
      by_cases hb4 : (L + 7) % 256 / 8 ≤ 4
      case neg => simp [read_exact, hle, hb4] at h
      case pos =>
        by_cases hL : L ≤ 32
        case neg => simp [read_exact, hle, hb4, hL] at h
        case pos =>
          simp only [read_exact, if_pos hle, if_pos hb4, if_pos hL, Except.ok.injEq,
            Prod.mk.injEq] at h
          obtain ⟨hnet, hrest⟩ := h
          have hm : (L + 7) % 256 = L + 7 := Nat.mod_eq_of_lt (by omega)
          rw [hm] at hle hb4 hnet hrest
          have ht : (rest.take ((L + 7) / 8)).length = (L + 7) / 8 := by
            rw [List.length_take]
            omega
          refine ⟨hL, hrest.symm, hnet.symm, ?_, ?_⟩
          · simp only [List.length_append, List.length_replicate, ht]
            omega
          · nth_rewrite 1 [← ht]
            rw [List.drop_left]
  · intro L rest net rest2 h
    unfold ribPrefixPart at h
    simp only [read_u8] at h
    by_cases hle : (L + 7) % 256 / 8 ≤ rest.length
    case neg => simp [read_exact, hle] at h
    case pos =>
      by_cases hb16 : (L + 7) % 256 / 8 ≤ 16
      case neg => simp [read_exact, hle, hb16] at h
      case pos =>
        by_cases hL : L ≤ 128
        case neg => simp [read_exact, hle, hb16, hL] at h
        case pos =>
          simp only [read_exact, if_pos hle, if_pos hb16, if_pos hL, Except.ok.injEq,
            Prod.mk.injEq] at h
          obtain ⟨hnet, hrest⟩ := h
          have hm : (L + 7) % 256 = L + 7 := Nat.mod_eq_of_lt (by omega)
          rw [hm] at hle hb16 hnet hrest
          have ht : (rest.take ((L + 7) / 8)).length = (L + 7) / 8 := by
            rw [List.length_take]
            omega
          refine ⟨hL, hrest.symm, hnet.symm, ?_, ?_⟩
          · simp only [List.length_append, List.length_replicate, ht]
            omega
          · nth_rewrite 1 [← ht]
            rw [List.drop_left]

theorem claim_C4_witness :
    ribPrefixPart (.TableDumpV2 .RibIpv4Unicast) [20, 1, 2, 3]
        = .ok (.v4 [1, 2, 3, 0] 20, [])
    ∧ 20 ≤ 32 :=
  ⟨by rfl, (claim_C4.1 20 [1, 2, 3] (.v4 [1, 2, 3, 0] 20) [] (by rfl)).1⟩

theorem get_path_segments_u32_bytes (b0 b1 b2 b3 : Nat) :
    AttributeAsPath.get_path_segments ⟨[2, 1, b0, b1, b2, b3]⟩ true
      = .ok [{ typ := .AsSequence,
               values := [((b0 * 256 + b1) * 256 + b2) * 256 + b3] }] := rfl

/-- C5, amended: for octet input, `get_path_segments` with the 16-bit
width yields only values in [0, 65535] while the 32-bit width ranges
over the full u32 interval (every u32 value is realized); and each
single segment decoded by `PathSegment::parse` from the same starting
bytes has the same kind and declared ASN count under both widths
whenever both succeed — but the full segment-list decode of the same
byte sequence may split the bytes into different segments per width
(see the counterexample). -/
theorem claim_C5 :
    (∀ (p : AttributeAsPath) (segs : List PathSegment), Wf8 p.data →
      p.get_path_segments false = .ok segs →
      ∀ s ∈ segs, ∀ v ∈ s.values, v ≤ 65535)
    ∧ (∀ (p : AttributeAsPath) (segs : List PathSegment), Wf8 p.data →
      p.get_path_segments true = .ok segs →
      ∀ s ∈ segs, ∀ v ∈ s.values, v < 4294967296)
    ∧ (∀ v : Nat, v < 4294967296 →
      AttributeAsPath.get_path_segments
          ⟨[2, 1, v / 16777216 % 256, v / 65536 % 256, v / 256 % 256, v % 256]⟩ true
        = .ok [{ typ := .AsSequence, values := [v] }])
    ∧ (∀ (l : Bytes) (s16 s32 : PathSegment) (r16 r32 : Bytes),
      PathSegment.parse false l = .ok (s16, r16) →
      PathSegment.parse true l = .ok (s32, r32) →
      s16.typ = s32.typ ∧ s16.values.length = s32.values.length) := by
  refine ⟨?_, ?_, ?_, ?_⟩
  · intro p segs hw h s hs v hv
    have h' : getPathSegmentsAux false p.data.length p.data = .ok segs := h
    have hb := getPathSegmentsAux_bound h' hw s hs v hv
    simp only [asnBound, if_neg] at hb
    norm_num at hb
    omega
  · intro p segs hw h s hs v hv
    have h' : getPathSegmentsAux true p.data.length p.data = .ok segs := h
    have hb := getPathSegmentsAux_bound h' hw s hs v hv
    simpa [asnBound] using hb
  · intro v hv
    have hN : ((v / 16777216 % 256 * 256 + v / 65536 % 256) * 256 + v / 256 % 256) * 256
        + v % 256 = v := by omega
    rw [get_path_segments_u32_bytes, hN]
  · intro l s16 s32 r16 r32 h16 h32
    obtain ⟨-, -, t, c, l2, hl, ht16, hc16⟩ := pathSegment_parse_ok h16
    obtain ⟨-, -, t', c', l2', hl', ht32, hc32⟩ := pathSegment_parse_ok h32
    rw [hl] at hl'
    simp only [List.cons.injEq] at hl'
    obtain ⟨e1, e2, -⟩ := hl'
    subst e1
    subst e2
    exact ⟨ht16.trans ht32.symm, hc16.trans hc32.symm⟩

theorem claim_C5_witness :
    AttributeAsPath.get_path_segments
        ⟨[2, 1, 701 / 16777216 % 256, 701 / 65536 % 256, 701 / 256 % 256, 701 % 256]⟩ true
      = .ok [{ typ := .AsSequence, values := [701] }] :=
  claim_C5.2.2.1 701 (by decide)

end MrtParser
